import Mathlib

/-!
Shallow embedding of `s_reality_scraper.py` (repository nik-panekin/s_reality_scraper)
and proofs about it.

Conventions of the embedding:
* Python strings are modelled as Lean `String` at the interfaces and as `List Char`
  internally; `str.split(sep)`, `str.strip()`, `str.join`, `str.replace` are modelled
  by executable functions below mirroring Python semantics for single-character
  separators (the only ones the source uses).
* Python `str(n)` for a non-negative `int` is modelled by `natChars` / `natStr`.
* Python `int(s)` (which raises `ValueError` on garbage) is modelled by
  `pyInt? : List Char → Option Int`; `none` models the raised exception.
  Digit-grouping underscores accepted by CPython are not modelled.
* Dictionary access `d[k]` that can raise `KeyError` is modelled by `Option`
  fields; `d.get(k)` is modelled by an `Option` field whose `none` does not abort.
* Fallible functions return `Option`; `none` models both an exception escaping the
  function and an explicit `return None`, exactly as the callers of the source
  treat them (`if x == None`-style checks).
-/

namespace SReality

/-- Python's `\s` class restricted to the ASCII whitespace characters
(` `, `\t`, `\n`, `\r`, `\x0b`, `\x0c`); the source only ever strips ASCII. -/
def isPySpace (c : Char) : Bool :=
  c = ' ' ∨ c = '\t' ∨ c = '\n' ∨ c = '\r' ∨ c = '\x0b' ∨ c = '\x0c'

/-- Python `str.split(sep)` for a one-character separator: splits at every
occurrence of `sep`, keeping empty pieces, and never returns an empty list. -/
def pySplit (sep : Char) : List Char → List (List Char)
  | [] => [[]]
  | c :: rest =>
    if c = sep then [] :: pySplit sep rest
    else
      match pySplit sep rest with
      | [] => [[c]]
      | p :: ps => (c :: p) :: ps

/-- Python `str.strip()` (both ends, whitespace). -/
def pyStrip (cs : List Char) : List Char :=
  ((cs.dropWhile isPySpace).reverse.dropWhile isPySpace).reverse

/-- The decimal digit character for `d < 10`. -/
def digitChar (d : Nat) : Char := Char.ofNat (48 + d)

/-- Fuel-indexed helper for `natChars`; the fuel only serves structural recursion
and is irrelevant once it exceeds the number (`natCharsAux_irrel`). -/
def natCharsAux : Nat → Nat → List Char
  | 0, _ => []
  | fuel + 1, n =>
    if n < 10 then [digitChar n]
    else natCharsAux fuel (n / 10) ++ [digitChar (n % 10)]

/-- Decimal representation of a natural number, as Python `str(n)` renders a
non-negative `int`: most significant digit first, no sign, no padding. -/
def natChars (n : Nat) : List Char := natCharsAux (n + 1) n

def natStr (n : Nat) : String := (natChars n).asString

/-- Value of a non-empty all-digit character list; `none` otherwise. -/
def digitsVal? (cs : List Char) : Option Nat :=
  match cs with
  | [] => none
  | _ =>
    cs.foldl
      (fun acc c =>
        acc.bind fun a => if c.isDigit then some (a * 10 + (c.toNat - 48)) else none)
      (some 0)

/-- Python `int(s)`: strips whitespace, allows one optional sign, then requires a
non-empty run of decimal digits; `none` models the `ValueError` raised otherwise.
(CPython's digit-grouping underscores are not modelled.) -/
def pyInt? (cs : List Char) : Option Int :=
  match pyStrip cs with
  | '+' :: rest => (digitsVal? rest).map Int.ofNat
  | '-' :: rest => (digitsVal? rest).map fun n => -(n : Int)
  | rest => (digitsVal? rest).map Int.ofNat

/-! ### Constants of the source (module-level constants of `s_reality_scraper.py`) -/

def BASE_URL : String := "https://www.sreality.cz/"

def ITEM_BASE_URL : String := BASE_URL ++ "detail/prodej/byt/"

def JSON_URL : String := BASE_URL ++ "api/cs/v2/estates"

/-- `ITEMS_PER_PAGE = 60`, the fixed page size of the catalog API. -/
def ITEMS_PER_PAGE : Nat := 60

def REMOVED_MARK : String := "removed"

def JSON_DIR : String := "json"

def IMAGE_DIR : String := "img"

/-! ### Link construction (`get_item_address`, `get_item_link`) and identifier parsing -/

/-- Address parts extracted by `get_item_address`. The record fields stand for the
source's dictionary keys: `street` = `'Улица'`, `district` = `'Район'`,
`part` = `'Часть района'`. -/
structure Address where
  street : String
  district : String
  part : String
deriving Repr, DecidableEq

/-- `get_item_address`: splits `'street, district - subdistrict'` free text exactly as
the source does (`split(',')[0]`, `split('-')[1]`, `addr_str[len(street):].split('-')[0]`
with `','` replaced by `' '`, all three stripped at the end). -/
def get_item_address (addr_str : String) : Address :=
  let cs := addr_str.toList
  let street := if ',' ∈ cs then (pySplit ',' cs).headD [] else []
  let part := if '-' ∈ cs then ((pySplit '-' cs).drop 1).headD [] else []
  let district0 := (pySplit '-' (cs.drop street.length)).headD []
  let district1 := district0.map fun c => if c = ',' then ' ' else c
  ⟨(pyStrip street).asString, (pyStrip district1).asString, (pyStrip part).asString⟩

/-- Matches the tail `\s\d+\sm²` of `ESTATE_TYPE_RE` at the beginning of `cs`
(anything may follow, as the pattern has no end anchor). `\d+` is greedy, but since
`\s` matches no digit, maximal munch is equivalent to the backtracking semantics. -/
def matchTail (cs : List Char) : Bool :=
  match cs with
  | c :: rest =>
    isPySpace c &&
      (let ds := rest.takeWhile Char.isDigit
       !ds.isEmpty &&
         (match rest.drop ds.length with
          | c2 :: 'm' :: '²' :: _ => isPySpace c2
          | _ => false))
  | [] => false

/-- Greedy search for the group `(.+)` of `ESTATE_TYPE_RE`: tries the longest
prefix first (the group may not contain a newline, which `.` does not match),
requiring `\s\d+\sm²` to match immediately after it. -/
def findGroup : Nat → List Char → Option (List Char)
  | 0, _ => none
  | k + 1, t =>
    let g := t.take (k + 1)
    if !g.contains '\n' && matchTail (t.drop (k + 1)) then some g
    else findGroup k t

/-- `re.findall(ESTATE_TYPE_RE, name)[0]`: the group of the anchored pattern
`^Prodej bytu (.+)\s\d+\sm²`; `none` models the `IndexError` raised on `[0]`
when there is no match. -/
def estateTypeOfName? (name : String) : Option String :=
  let cs := name.toList
  let pat := "Prodej bytu ".toList
  if pat.isPrefixOf cs then
    let t := cs.drop pat.length
    (findGroup t.length t).map List.asString
  else none

/-- Character-level effect of `remove_umlauts` on one character.
Modelled from the spec: `remove_umlauts` lives in `scraping_utils.py`, which is not
part of the given sources; the spec describes the link derivation as
"lower-cased, diacritics stripped", so this maps each Czech diacritic letter to its
base letter (case preserved) and leaves every other character unchanged. -/
def remove_umlauts_char (c : Char) : Char :=
  let table : List (Char × Char) :=
    [('á', 'a'), ('č', 'c'), ('ď', 'd'), ('é', 'e'), ('ě', 'e'), ('í', 'i'),
     ('ň', 'n'), ('ó', 'o'), ('ř', 'r'), ('š', 's'), ('ť', 't'), ('ú', 'u'),
     ('ů', 'u'), ('ý', 'y'), ('ž', 'z'),
     ('Á', 'A'), ('Č', 'C'), ('Ď', 'D'), ('É', 'E'), ('Ě', 'E'), ('Í', 'I'),
     ('Ň', 'N'), ('Ó', 'O'), ('Ř', 'R'), ('Š', 'S'), ('Ť', 'T'), ('Ú', 'U'),
     ('Ů', 'U'), ('Ý', 'Y'), ('Ž', 'Z')]
  (((table.find? fun p => p.1 = c).map Prod.snd).getD c)

/-- The per-character composition applied to the joined link in `get_item_link`:
`remove_umlauts(link).lower().replace(' ', '-').replace('.', '-')`. -/
def linkCharMap (c : Char) : Char :=
  let c1 := (remove_umlauts_char c).toLower
  let c2 := if c1 = ' ' then '-' else c1
  if c2 = '.' then '-' else c2

/-- `get_item_link`, split by its two dictionary reads: this part builds the link from
`item_json['locality']['value']`, `item_json['name']['value']` and the `hash_id`.
`'/'.join([estate_type, link_ceo, str(hash_id)])` is written out as list append. -/
def build_item_link (locality_value name_value : String) (hash_id : Nat) :
    Option String := do
  let address := get_item_address locality_value
  let link_ceo : String :=
    if address.part ≠ "" ∨ address.street ≠ "" then
      "praha-" ++ address.part ++ "-" ++ address.street
    else
      "praha-" ++ address.district ++ "-"
  let et0 ← estateTypeOfName? name_value
  let estate_type := if et0 = "6 pokojů a více" then "6-a-vice" else et0
  let raw : List Char :=
    estate_type.toList ++ '/' :: (link_ceo.toList ++ '/' :: natChars hash_id)
  some (ITEM_BASE_URL ++ (raw.map linkCharMap).asString)

/-- `hash_id_from_link`: `int(item_link.split('/')[-1])`. -/
def hash_id_from_link (item_link : String) : Option Int :=
  pyInt? ((pySplit '/' item_link.toList).getLastD [])

/-- The filename `save_item_json` writes to: `os.path.join(JSON_DIR, f'{hash_id}.json')`
on a POSIX path separator. -/
def save_item_json_filename (hash_id : Nat) : String :=
  JSON_DIR ++ "/" ++ natStr hash_id ++ ".json"

/-- `hash_id_from_json_name`: `int(os.path.basename(json_filename).split('.')[0])`,
with `os.path.basename` = the part after the last `'/'`. -/
def hash_id_from_json_name (json_filename : String) : Option Int :=
  pyInt? ((pySplit '.' ((pySplit '/' json_filename.toList).getLastD [])).headD [])


/-! ### The raw item document model and the record transformer (`get_item`) -/

/-- A Python value sitting in a field's `'value'` entry. `vlist` models the list of
elements of a `'set'`-typed field, each element reduced to its `'value'` entry
(`none` = the element lacks the key, so `element['value']` raises). -/
inductive FVal where
  | vstr (s : String)
  | vint (n : Int)
  | vbool (b : Bool)
  | vlist (elems : List (Option FVal))
deriving Repr

/-- Python `str()` of a field value. Lists are rendered as an opaque `"[...]"`
marker: the source never successfully stringifies a bare list on the paths the
claims exercise, and its exact Python rendering is irrelevant to them. -/
def pyStr : FVal → String
  | .vstr s => s
  | .vint n => toString n
  | .vbool b => if b then "True" else "False"
  | .vlist _ => "[...]"

/-- One phone entry: `phones[i]['code']` / `phones[i]['number']`; `none` models a
missing key (`KeyError`). -/
structure PhoneJ where
  code : Option String := none
  number : Option String := none
deriving Repr, DecidableEq

/-- `item_json['_embedded']['seller']`. -/
structure SellerJ where
  user_name : Option String := none
  phones : Option (List PhoneJ) := none
deriving Repr, DecidableEq

/-- `item_json['contact']`. -/
structure ContactJ where
  name : Option String := none
  phones : Option (List PhoneJ) := none
deriving Repr

/-- One entry of `item_json['items']`. String-typed entries (`currency`, `unit`,
`unit2`, `notes`, `url`) are typed as strings because `' '.join` would raise on
anything else; `none` models the key being absent. `has_negotiation` models
`field.get('negotiation') != None`. -/
structure FieldJ where
  type : Option String := none
  name : Option String := none
  value : Option FVal := none
  currency : Option String := none
  unit : Option String := none
  unit2 : Option String := none
  notes : Option (List String) := none
  url : Option String := none
  has_negotiation : Bool := false
deriving Repr

/-- `item_json['price_czk']`: `falsy` = the key holds an empty/None value (so
`if item_json['price_czk']:` takes the else branch), `truthy v?` = a non-empty
dictionary whose `'value'` entry is `v?` (`none` = `KeyError` on `['value']`). -/
inductive PriceCzkBlock where
  | falsy
  | truthy (value : Option String)
deriving Repr

/-- The raw item document, restricted to exactly the keys `get_item` and
`get_item_link` read. An outer `none` models the key being absent, so that the
subscript access raises `KeyError`; chained accesses such as
`item_json['locality']['value']` are merged into one field whose `none` covers a
failure anywhere in the chain. `map_latlon` holds the `str()` renderings of
`['map']['lat']` / `['map']['lon']` (inner `none` = the key is absent).
`embedded_seller`'s outer `none` is a missing `'_embedded'` key (raises); the inner
`Option` is `.get('seller')` (does not raise). `contact` is `.get('contact')`. -/
structure ItemJson where
  items : Option (List FieldJ) := none
  locality_value : Option String := none
  name_value : Option String := none
  price_czk : Option PriceCzkBlock := none
  text_value : Option String := none
  map_latlon : Option (Option String × Option String) := none
  embedded_seller : Option (Option SellerJ) := none
  contact : Option ContactJ := none
deriving Repr

/-- `get_item_link(item_json, hash_id)` of the source: the two dictionary reads
followed by `build_item_link`. -/
def get_item_link (item_json : ItemJson) (hash_id : Nat) : Option String := do
  let loc ← item_json.locality_value
  let nm ← item_json.name_value
  build_item_link loc nm hash_id

/-- `text.replace('\r\n', '<br />')` specialised to the one pattern the source uses. -/
def replaceCRLF : List Char → List Char
  | '\r' :: '\n' :: rest => '<' :: 'b' :: 'r' :: ' ' :: '/' :: '>' :: replaceCRLF rest
  | c :: rest => c :: replaceCRLF rest
  | [] => []

/-- Functional update of the record dictionary (`item[k] = v`). -/
def updF (m : String → String) (k v : String) : String → String :=
  fun x => if x = k then v else m x

/-- The type tags `get_item` dispatches on; any other tag only logs a warning. -/
def recognizedTypes : List String :=
  ["string", "edited", "count", "energy_efficiency_rating", "date", "price_czk",
   "area", "boolean", "set", "integer", "price_info", "energy_performance",
   "energy_performance_attachment", "length", "price", "price_czk_old"]

/-- The `value` computed by the per-type `elif` chain of `get_item` for a field of
type tag `t`. Outer `none` = an exception escapes (missing key, or `+=` on a
non-string); `some none` = the tag is unrecognized and `value` stays Python `None`;
`some (some s)` = the computed cell text. -/
def fieldValue (field : FieldJ) (t : String) : Option (Option String) :=
  if t = "string" ∨ t = "edited" ∨ t = "count" ∨ t = "energy_efficiency_rating" ∨
      t = "date" then do
    let v ← field.value
    pure (some (pyStr v))
  else if t = "price_czk" then do
    let v ← field.value
    let cur ← field.currency
    let u ← field.unit
    let ns ← field.notes
    let s := String.intercalate " " [pyStr v, cur, u]
    let s := String.intercalate ", " [s, String.intercalate ", " ns]
    pure (some (if field.has_negotiation then s ++ " (k jednání)" else s))
  else if t = "area" then do
    let v ← field.value
    let u ← field.unit
    pure (some (String.intercalate " " [pyStr v, u]))
  else if t = "boolean" then do
    let v ← field.value
    pure (some ((pyStr v).toList.map Char.toLower).asString)
  else if t = "set" then do
    let v ← field.value
    match v with
    | FVal.vlist elems => do
        let strs ← elems.mapM fun e => e.map pyStr
        pure (some (String.intercalate ", " strs))
    | _ => none
  else if t = "integer" then do
    let v ← field.value
    pure (some (pyStr v))
  else if t = "price_info" then do
    let v ← field.value
    if field.has_negotiation then
      match v with
      | FVal.vstr s => pure (some (s ++ " (k jednání)"))
      | _ => none
    else
      pure (some (pyStr v))
  else if t = "energy_performance" then do
    let v ← field.value
    let u ← field.unit
    let u2 ← field.unit2
    pure (some (String.intercalate " " [pyStr v, u, u2]))
  else if t = "energy_performance_attachment" then do
    let u ← field.url
    pure (some u)
  else if t = "length" then do
    let v ← field.value
    let u ← field.unit
    pure (some (String.intercalate " " [pyStr v, u]))
  else if t = "price" ∨ t = "price_czk_old" then do
    let v ← field.value
    let cur ← field.currency
    let s := String.intercalate " " [pyStr v, cur]
    pure (some (match field.unit with
      | some u => s ++ " " ++ u
      | none => s))
  else
    pure none

/-- One iteration of the `for field in item_json['items']` loop of `get_item`:
computes `value` by the `elif` chain; an unrecognized tag leaves the record
untouched (only a warning is logged); otherwise `item[field['name']] = value`. -/
def procField (item : String → String) (field : FieldJ) : Option (String → String) := do
  let t ← field.type
  let v? ← fieldValue field t
  match v? with
  | none => pure item
  | some v => do
      let n ← field.name
      pure (updF item n v)

/-- The `'Цена'` cell from the `price_czk` block: `value + ' Kč'` when the block
is truthy (raising if its `'value'` key is absent), the fixed fallback text when it
is falsy (`'Info o ceně u RK'`). -/
def price_czk_cell : PriceCzkBlock → Option String
  | PriceCzkBlock.truthy v? => do
      let v ← v?
      pure (v ++ " Kč")
  | PriceCzkBlock.falsy => pure "Info o ceně u RK"

/-- The seller branch of the contact logic
(`if item_json['_embedded'].get('seller') != None`): a present seller block writes
its `user_name` into the record's contact-name column and hands over its phone
list; an absent one leaves the record untouched with the empty phone list. -/
def seller_update (m : String → String) : Option SellerJ →
    Option ((String → String) × List PhoneJ)
  | some s => do
      let un ← s.user_name
      let ps ← s.phones
      pure (updF m "Контакт Имя" un, ps)
  | none => pure (m, ([] : List PhoneJ))

/-- The contact branch (`if item_json.get('contact') != None`), run after the
seller branch: a present contact block overwrites the contact-name column and the
phone list; an absent one keeps whatever the seller branch produced. -/
def contact_update (sm : (String → String) × List PhoneJ) :
    Option ContactJ → Option ((String → String) × List PhoneJ)
  | some c => do
      let cn ← c.name
      let ps ← c.phones
      pure (updF sm.1 "Контакт Имя" cn, ps)
  | none => pure sm

/-- `if len(phones) > 0:` — the first phone formatted `+<code><number>`; with no
phones the column is left alone. -/
def phone1_update (m : String → String) : List PhoneJ → Option (String → String)
  | p :: _ => do
      let cd ← p.code
      let num ← p.number
      pure (updF m "Контакт телефон 1" ("+" ++ cd ++ num))
  | [] => pure m

/-- `if len(phones) > 1: ... else:` — the second phone, or the asymmetric branch
that always rewrites the second phone column with the empty string. -/
def phone2_update (m : String → String) : List PhoneJ → Option (String → String)
  | _ :: p2 :: _ => do
      let cd ← p2.code
      let num ← p2.number
      pure (updF m "Контакт телефон 2" ("+" ++ cd ++ num))
  | _ => pure (updF m "Контакт телефон 2" "")

/-- Lines 369–388 of the source: the contact block resolution (seller first, then
contact overriding it), the two phone columns, and the provenance timestamps
(`'Добавлено' = now`, `'Удалено' = ''`), applied to the record built so far. -/
def contact_section (item_json : ItemJson) (now : String) (m : String → String) :
    Option (String → String) := do
  let sellerOpt ← item_json.embedded_seller
  let sm ← seller_update m sellerOpt
  let cm ← contact_update sm item_json.contact
  let m ← phone1_update cm.1 cm.2
  let m ← phone2_update m cm.2
  let m := updF m "Добавлено" now
  pure (updF m "Удалено" "")

/-- `get_item(item_json, hash_id)` of the source. `now` stands for
`datetime.now().strftime(...)` (the wall clock is external). The record is the
final dictionary as a total lookup function: every column the source initialises
to `''` starts at `""`, and extra keys written by the field loop are carried too
(the CSV writer only ever reads the fixed columns). `none` models `get_item`
returning `None` after the caught exception. -/
def get_item (item_json : ItemJson) (hash_id : Nat) (now : String) :
    Option (String → String) := do
  let init : String → String := fun _ => ""
  let fields ← item_json.items
  let m ← fields.foldlM procField init
  let link ← get_item_link item_json hash_id
  let m := updF m "Ссылка" link
  let nm ← item_json.name_value
  let m := updF m "Заголовок" nm
  let loc ← item_json.locality_value
  let address := get_item_address loc
  let m := updF m "Улица" address.street
  let m := updF m "Район" address.district
  let m := updF m "Часть района" address.part
  let pc ← item_json.price_czk
  let priceStr ← price_czk_cell pc
  let m := updF m "Цена" priceStr
  let txt ← item_json.text_value
  let m := updF m "Описание" (replaceCRLF txt.toList).asString
  let latlon ← item_json.map_latlon
  let la ← latlon.1
  let lo ← latlon.2
  let m := updF m "Геопозиция широта" la
  let m := updF m "Геопозиция долгота" lo
  contact_section item_json now m

/-! ### The tabular store (`COLUMNS`, `save_item`, `save_items`) -/

/-- The fixed ordered column list of the CSV store, exactly as in the source. -/
def COLUMNS : List String :=
  ["Ссылка",
   "Заголовок",
   "Улица",
   "Район",
   "Часть района",
   "Цена",
   "Описание",
   "Celková cena",
   "ID zakázky",
   "Aktualizace",
   "Stavba",
   "Stav objektu",
   "Vlastnictví",
   "Podlaží",
   "Užitná plocha",
   "Balkón",
   "Sklep",
   "Parkování",
   "Garáž",
   "Energetická náročnost budovy",
   "Bezbariérový",
   "Vybavení",
   "Výtah",
   "Plocha podlahová",
   "Poznámka k ceně",
   "Umístění objektu",
   "Elektřina",
   "Doprava",
   "Rok rekonstrukce",
   "Voda",
   "Topení",
   "Odpad",
   "Telekomunikace",
   "Terasa",
   "Cena",
   "Plyn",
   "Rok kolaudace",
   "Komunikace",
   "Ukazatel energetické náročnosti budovy",
   "Datum ukončení výstavby",
   "Datum zahájení prodeje",
   "Typ bytu",
   "Stav",
   "Průkaz energetické náročnosti budovy",
   "Datum nastěhování",
   "ID",
   "Lodžie",
   "Datum prohlídky",
   "Datum prohlídky do",
   "Náklady na bydlení",
   "Anuita",
   "Převod do OV",
   "Plocha zahrady",
   "Výška stropu",
   "Plocha zastavěná",
   "Počet bytů",
   "Provize",
   "Půdní vestavba",
   "Zlevněno",
   "Původní cena",
   "Bazén",
   "Minimální kupní cena",
   "Геопозиция широта",
   "Геопозиция долгота",
   "Контакт Имя",
   "Контакт телефон 1",
   "Контакт телефон 2",
   "Добавлено",
   "Удалено"]

/-- `save_item(item, filename, first_item)`. The CSV file is modelled as its list of
rows (each row a list of cells). `first_item=True` opens with mode `'w'`: the file is
truncated and header plus the one row are written; otherwise the row is appended.
`write_ok = false` models an `OSError` (taken here as failing on `open`, leaving the
file as it was); the function then returns `False`. -/
def save_item (item : String → String) (first_item : Bool) (write_ok : Bool)
    (file : List (List String)) : Bool × List (List String) :=
  if write_ok then
    (true,
      if first_item then [COLUMNS, COLUMNS.map item]
      else file ++ [COLUMNS.map item])
  else (false, file)

/-- The `for index, item in enumerate(items)` loop of `save_items`: stops and
returns `False` at the first failed `save_item`. -/
def save_items_go (write_ok : Nat → Bool) (index : Nat)
    (items : List (String → String)) (file : List (List String)) :
    Bool × List (List String) :=
  match items with
  | [] => (true, file)
  | it :: rest =>
    let r := save_item it (index == 0) (write_ok index) file
    if r.1 then save_items_go write_ok (index + 1) rest r.2 else (false, r.2)

/-- `save_items(items, filename)`: rewrites the store by calling `save_item` once per
record, with `first_item = (index == 0)`. `write_ok i` says whether the `i`-th write
succeeds. Returns the success flag and the resulting file contents. -/
def save_items (items : List (String → String)) (write_ok : Nat → Bool)
    (file : List (List String)) : Bool × List (List String) :=
  save_items_go write_ok 0 items file

/-- The serialized CSV file for a loaded store: header row plus one row per record. -/
def storeFile (store : List (String → String)) : List (List String) :=
  COLUMNS :: store.map fun it => COLUMNS.map it

/-! ### Checkpoint store (`save_last_page` / `load_last_page`) -/

/-- `load_last_page()`. The checkpoint file is modelled as
`none` = file absent, `some none` = `open`/`read` raises `OSError`,
`some (some content)` = the file reads `content`. A content that does not parse as a
Python `int` raises `ValueError`; both handlers log and leave `page = 0`. -/
def load_last_page (checkpoint_file : Option (Option String)) : Int :=
  match checkpoint_file with
  | none => 0
  | some none => 0
  | some (some content) =>
    match pyInt? content.toList with
    | some n => n
    | none => 0

/-! ### Pagination (`get_page_count`) and the reconciler (`scrape_hash_ids`,
`check_item`, `check_items`) -/

/-- `get_page_count(today)`: `ceil(search_result['result_size'] / ITEMS_PER_PAGE)`.
`search_result = none` models a falsy/missing search result (the function then
returns `None`); division is Python's true division, hence the rational ceiling. -/
def get_page_count (search_result : Option Nat) : Option Nat :=
  match search_result with
  | some result_size => some ⌈(result_size : ℚ) / (ITEMS_PER_PAGE : ℚ)⌉₊
  | none => none

/-- `range(a, b)` over naturals. -/
def pyRange (a b : Nat) : List Nat := List.range' a (b - a)

/-- `scrape_hash_ids()`: walks pages `1..page_count`, extending the accumulated list
with each page's identifiers not already collected. `category page = none` models
both a failed page fetch (the uncaught subscript on `None`) and a `null` estates
list; either way no list is produced. -/
def scrape_hash_ids (search_result : Option Nat)
    (category : Nat → Option (List Int)) : Option (List Int) := do
  let page_count ← get_page_count search_result
  (pyRange 1 (page_count + 1)).foldlM
    (fun acc page => do
      let estates ← category page
      pure (acc ++ estates.filter fun h => decide (h ∉ acc)))
    ([] : List Int)

/-- `check_item(hash_id, hash_ids)`: in the live set, or else one confirmatory
detail fetch (`item_available h` models `get_item_json(h) != None`). -/
def check_item (hash_id : Int) (hash_ids : List Int)
    (item_available : Int → Bool) : Bool :=
  if hash_id ∈ hash_ids then true
  else item_available hash_id

/-- `check_items()`: re-derives the live identifier set; on failure returns `False`
at once — before `load_items` or any write — so the previous file contents stand.
Otherwise marks every stored row whose identifier fails `check_item` and rewrites
the store via `save_items`. The result pairs the returned flag with the on-disk
file contents after the call; the outer `none` models an uncaught exception (a row
whose link column does not parse). -/
def check_items (search_result : Option Nat) (category : Nat → Option (List Int))
    (item_available : Int → Bool) (store : List (String → String))
    (write_ok : Nat → Bool) : Option (Bool × List (List String)) :=
  match scrape_hash_ids search_result category with
  | none => some (false, storeFile store)
  | some hash_ids => do
    let items ← store.mapM fun item => do
      let h ← hash_id_from_link (item "Ссылка")
      pure (if check_item h hash_ids item_available then item
            else updF item "Удалено" REMOVED_MARK)
    let res := save_items items write_ok (storeFile store)
    pure (res.1, res.2)

/-! ### The ingestion orchestrator (`scrape_items`) -/

/-- `first_page = from_page if (from_page != None) else (load_last_page() + 1)`,
with `last_page` the loaded checkpoint value. -/
def first_page_of (from_page : Option Nat) (last_page : Nat) : Nat :=
  match from_page with
  | some p => p
  | none => last_page + 1

/-- `from_page` as `main` computes it for the `build` command: `--update` forces
page 1, otherwise no override (lines 868–872 of the source). -/
def build_from_page (update_flag : Bool) : Option Nat :=
  if update_flag then some 1 else none

/-- One item of the per-page `for estate in estates` loop: an identifier already in
`hash_ids` is skipped outright (no fetch, no append); otherwise
`save_item_comprehensive` runs (`save_ok h` is its outcome) and only on success is
the identifier appended to both the in-memory index and the store. -/
def scrape_item_step (save_ok : Int → Bool) (st : List Int × List Int) (h : Int) :
    List Int × List Int :=
  if h ∈ st.1 then st
  else if save_ok h then (st.1 ++ [h], st.2 ++ [h])
  else st

/-- Outcome of one ingestion run: the returned flag, the final in-memory identifier
index, the identifiers of the rows appended to the store (in append order), and the
pages written to the checkpoint file (in write order). -/
structure ScrapeRun where
  ok : Bool
  hash_ids : List Int
  added : List Int
  saved_pages : List Nat
deriving Repr

/-- The page loop of `scrape_items`: for each page, fetch its estates
(`category page = none` aborts the run returning `False`, before that page's
checkpoint write), process the items, then `save_last_page(page)`. -/
def scrape_pages (category : Nat → Option (List Int)) (save_ok : Int → Bool) :
    List Nat → List Int → List Int → ScrapeRun
  | [], ids, added => ⟨true, ids, added, []⟩
  | page :: rest, ids, added =>
    match category page with
    | none => ⟨false, ids, added, []⟩
    | some estates =>
      let st := estates.foldl (scrape_item_step save_ok) (ids, added)
      let r := scrape_pages category save_ok rest st.1 st.2
      ⟨r.ok, r.hash_ids, r.added, page :: r.saved_pages⟩

/-- `scrape_items`: loads the store's identifiers (`store_hash_ids`), computes the
first page from `from_page` or the checkpoint, and iterates
`range(first_page, page_count + 1)`. TOR identity rotation is not modelled (it only
adds further abort points). -/
def scrape_items (category : Nat → Option (List Int)) (save_ok : Int → Bool)
    (page_count : Nat) (from_page : Option Nat) (last_page : Nat)
    (store_hash_ids : List Int) : ScrapeRun :=
  scrape_pages category save_ok
    (pyRange (first_page_of from_page last_page) (page_count + 1))
    store_hash_ids []


/-! ### Concrete documents and records used as claim instances -/

/-- A seller block with a name and one phone, for exercising the contact logic. -/
def sellerBob : SellerJ :=
  { user_name := some "Bob"
    phones := some [{ code := some "420", number := some "111222333" }] }

/-- A top-level contact block differing from `sellerBob` in name and phone. -/
def contactJane : ContactJ :=
  { name := some "Jane"
    phones := some [{ code := some "420", number := some "999888777" }] }

/-- A raw document carrying both an embedded seller block and a top-level contact
block, with all required blocks present. -/
def docBoth : ItemJson :=
  { items := some []
    locality_value := some "Karla Engliše, Praha 5 - Smíchov"
    name_value := some "Prodej bytu 2+1 83 m²"
    price_czk := some (PriceCzkBlock.truthy (some "5 000 000"))
    text_value := some "Nice flat"
    map_latlon := some (some "50.1", some "14.4")
    embedded_seller := some (some sellerBob)
    contact := some contactJane }

/-- A raw document with the price, map and text blocks all present but the
`'_embedded'` key absent. -/
def docNoEmbedded : ItemJson :=
  { items := some []
    locality_value := some "Karla Engliše, Praha 5 - Smíchov"
    name_value := some "Prodej bytu 2+1 83 m²"
    price_czk := some (PriceCzkBlock.truthy (some "5 000 000"))
    text_value := some "Nice flat"
    map_latlon := some (some "50.1", some "14.4")
    embedded_seller := none
    contact := none }

/-- A raw document whose locality and name parse, used for the link round trip. -/
def docLink : ItemJson :=
  { locality_value := some "Karla Engliše, Praha 5 - Smíchov"
    name_value := some "Prodej bytu 2+1 83 m²" }

/-- A field entry with an unrecognized type tag. -/
def fieldUnknownType : FieldJ :=
  { type := some "weird_type", name := some "Bazén", value := some (FVal.vstr "x") }

/-- Like `docBoth`, but with no top-level contact block: only the seller remains. -/
def docSellerOnly : ItemJson :=
  { items := some []
    locality_value := some "Karla Engliše, Praha 5 - Smíchov"
    name_value := some "Prodej bytu 2+1 83 m²"
    price_czk := some (PriceCzkBlock.truthy (some "5 000 000"))
    text_value := some "Nice flat"
    map_latlon := some (some "50.1", some "14.4")
    embedded_seller := some (some sellerBob)
    contact := none }

/-- Three constant records for the store-rewrite instances. -/
def itemA : String → String := fun _ => "a"

def itemB : String → String := fun _ => "b"

def oldRecord : String → String := fun _ => "z"

/-! ### General lemmas about the string machinery -/

theorem natCharsAux_irrel : ∀ (f1 f2 n : Nat), n < f1 → n < f2 →
    natCharsAux f1 n = natCharsAux f2 n := by
  intro f1
  induction f1 using Nat.strong_induction_on with
  | _ f1 ih =>
    intro f2 n h1 h2
    cases f1 with
    | zero => omega
    | succ g1 =>
      cases f2 with
      | zero => omega
      | succ g2 =>
        simp only [natCharsAux]
        by_cases h10 : n < 10
        · simp [h10]
        · simp only [if_neg h10]
          have hd : n / 10 < n := Nat.div_lt_self (by omega) (by omega)
          rw [ih g1 (by omega) g2 (n / 10) (by omega) (by omega)]

theorem natChars_unfold (n : Nat) :
    natChars n = if n < 10 then [digitChar n]
      else natChars (n / 10) ++ [digitChar (n % 10)] := by
  by_cases h10 : n < 10
  · simp only [natChars, natCharsAux, if_pos h10]
  · simp only [if_neg h10]
    show natCharsAux (n + 1) n = natCharsAux (n / 10 + 1) (n / 10) ++ _
    rw [show natCharsAux (n + 1) n
        = natCharsAux n (n / 10) ++ [digitChar (n % 10)] from by
      simp only [natCharsAux, if_neg h10]]
    have hd : n / 10 < n := Nat.div_lt_self (by omega) (by omega)
    rw [natCharsAux_irrel n (n / 10 + 1) (n / 10) (by omega) (by omega)]

theorem pySplit_ne_nil (sep : Char) (cs : List Char) : pySplit sep cs ≠ [] := by
  induction cs with
  | nil => simp [pySplit]
  | cons c rest ih =>
    simp only [pySplit]
    split
    · simp
    · cases h : pySplit sep rest with
      | nil => simp
      | cons p ps => simp

theorem getLastD_cons_of_ne {α : Type} (a : α) (l : List α) (d : α) (h : l ≠ []) :
    (a :: l).getLastD d = l.getLastD d := by
  cases l with
  | nil => exact absurd rfl h
  | cons b m => rfl

theorem two_le_length_pySplit (sep : Char) (cs : List Char) (h : sep ∈ cs) :
    2 ≤ (pySplit sep cs).length := by
  induction cs with
  | nil => simp at h
  | cons c rest ih =>
    simp only [pySplit]
    by_cases hc : c = sep
    · rw [if_pos hc]
      have h1 : 1 ≤ (pySplit sep rest).length :=
        List.length_pos.mpr (pySplit_ne_nil sep rest)
      simp only [List.length_cons]
      omega
    · rw [if_neg hc]
      have hm : sep ∈ rest := by
        rcases List.mem_cons.mp h with h1 | h2
        · exact absurd h1.symm hc
        · exact h2
      cases hps : pySplit sep rest with
      | nil => exact absurd hps (pySplit_ne_nil sep rest)
      | cons p ps =>
        have := ih hm
        rw [hps] at this
        simpa using this

theorem pySplit_getLastD_append (sep : Char) (xs ys : List Char) :
    (pySplit sep (xs ++ sep :: ys)).getLastD [] = (pySplit sep ys).getLastD [] := by
  induction xs with
  | nil =>
    simp only [List.nil_append, pySplit, if_pos rfl]
    exact getLastD_cons_of_ne _ _ _ (pySplit_ne_nil sep ys)
  | cons c xs ih =>
    simp only [List.cons_append, pySplit]
    split
    · simp only [List.append_eq]
      rw [getLastD_cons_of_ne _ _ _ (pySplit_ne_nil sep (xs ++ sep :: ys))]
      exact ih
    · cases h : pySplit sep (xs ++ sep :: ys) with
      | nil => exact absurd h (pySplit_ne_nil sep _)
      | cons p ps =>
        rw [h] at ih
        cases ps with
        | nil =>
          have h2 := two_le_length_pySplit sep (xs ++ sep :: ys)
            (by simp)
          rw [h] at h2
          simp at h2
        | cons q qs =>
          rw [getLastD_cons_of_ne _ _ _ (by simp : q :: qs ≠ [])]
          rw [getLastD_cons_of_ne _ _ _ (by simp : q :: qs ≠ [])] at ih
          exact ih

theorem pySplit_of_not_mem (sep : Char) (cs : List Char) (h : sep ∉ cs) :
    pySplit sep cs = [cs] := by
  induction cs with
  | nil => rfl
  | cons c rest ih =>
    simp only [List.mem_cons, not_or] at h
    have hc : ¬c = sep := fun hh => h.1 hh.symm
    simp only [pySplit, if_neg hc, ih h.2]

theorem pySplit_headD_append (sep : Char) (xs ys : List Char) (h : sep ∉ xs) :
    (pySplit sep (xs ++ sep :: ys)).headD [] = xs := by
  induction xs with
  | nil => simp [pySplit]
  | cons c xs ih =>
    simp only [List.mem_cons, not_or] at h
    have hc : ¬c = sep := fun hh => h.1 hh.symm
    simp only [List.cons_append, pySplit, if_neg hc]
    cases hs : pySplit sep (xs ++ sep :: ys) with
    | nil => exact absurd hs (pySplit_ne_nil sep _)
    | cons p ps =>
      have hih := ih h.2
      rw [hs] at hih
      simp only [List.headD_cons] at hih ⊢
      rw [hih]

theorem digitChar_isDigit {d : Nat} (h : d < 10) : (digitChar d).isDigit = true := by
  interval_cases d <;> decide

theorem natChars_digits (n : Nat) : ∀ c ∈ natChars n, c.isDigit = true := by
  induction n using Nat.strong_induction_on with
  | _ n ih =>
    intro c hc
    rw [natChars_unfold] at hc
    split at hc
    · next h =>
      simp only [List.mem_singleton] at hc
      exact hc ▸ digitChar_isDigit h
    · next h =>
      rcases List.mem_append.mp hc with h1 | h2
      · exact ih (n / 10) (Nat.div_lt_self (by omega) (by omega)) c h1
      · simp only [List.mem_singleton] at h2
        exact h2 ▸ digitChar_isDigit (Nat.mod_lt _ (by omega))

theorem digitChar_toNat {d : Nat} (h : d < 10) : (digitChar d).toNat = 48 + d := by
  interval_cases d <;> decide

theorem natChars_ne_nil (n : Nat) : natChars n ≠ [] := by
  rw [natChars_unfold]
  split
  · simp
  · simp

theorem digitsVal?_natChars (n : Nat) : digitsVal? (natChars n) = some n := by
  induction n using Nat.strong_induction_on with
  | _ n ih =>
    rw [natChars_unfold]
    split
    · next h =>
      have hd : (digitChar n).isDigit = true := digitChar_isDigit h
      have hv : (digitChar n).toNat - 48 = n := by rw [digitChar_toNat h]; omega
      simp [digitsVal?, hd, hv]
    · next h =>
      have hrec := ih (n / 10) (Nat.div_lt_self (by omega) (by omega))
      have h10 : n % 10 < 10 := Nat.mod_lt _ (by omega)
      have hd : (digitChar (n % 10)).isDigit = true := digitChar_isDigit h10
      have hv : (digitChar (n % 10)).toNat - 48 = n % 10 := by
        rw [digitChar_toNat h10]; omega
      cases hcs : natChars (n / 10) with
      | nil => exact absurd hcs (natChars_ne_nil _)
      | cons c0 cs0 =>
        rw [hcs] at hrec
        simp only [digitsVal?] at hrec
        simp only [digitsVal?, List.cons_append, List.foldl_append, List.foldl_cons,
          List.foldl_nil] at hrec ⊢
        rw [hrec]
        simp only [Option.some_bind, hd, if_true, hv]
        congr 1
        omega

theorem natChars_shape (n : Nat) : ∀ c ∈ natChars n, ∃ d, d < 10 ∧ c = digitChar d := by
  induction n using Nat.strong_induction_on with
  | _ n ih =>
    intro c hc
    rw [natChars_unfold] at hc
    split at hc
    · next h =>
      simp only [List.mem_singleton] at hc
      exact ⟨n, h, hc⟩
    · next h =>
      rcases List.mem_append.mp hc with h1 | h2
      · exact ih (n / 10) (Nat.div_lt_self (by omega) (by omega)) c h1
      · simp only [List.mem_singleton] at h2
        exact ⟨n % 10, Nat.mod_lt _ (by omega), h2⟩

theorem dropWhile_eq_self_of {α : Type} (p : α → Bool) (l : List α)
    (h : ∀ c ∈ l, p c = false) : l.dropWhile p = l := by
  cases l with
  | nil => rfl
  | cons a m => simp [List.dropWhile, h a (List.mem_cons_self a m)]

theorem pyStrip_eq_self (cs : List Char) (h : ∀ c ∈ cs, isPySpace c = false) :
    pyStrip cs = cs := by
  unfold pyStrip
  rw [dropWhile_eq_self_of _ _ h,
    dropWhile_eq_self_of _ _ (fun c hc => h c (List.mem_reverse.mp hc)),
    List.reverse_reverse]

theorem digitChar_not_space {d : Nat} (h : d < 10) : isPySpace (digitChar d) = false := by
  interval_cases d <;> decide

theorem natChars_not_space (n : Nat) : ∀ c ∈ natChars n, isPySpace c = false := by
  intro c hc
  obtain ⟨d, hd, rfl⟩ := natChars_shape n c hc
  exact digitChar_not_space hd

/-- Round trip at the heart of all the identifier claims: Python `int(str(n)) = n`. -/
theorem pyInt?_natChars (n : Nat) : pyInt? (natChars n) = some (n : Int) := by
  unfold pyInt?
  rw [pyStrip_eq_self _ (natChars_not_space n)]
  have hplus : ∀ rest : List Char, natChars n ≠ '+' :: rest := by
    intro rest hq
    have := natChars_shape n '+' (by rw [hq]; exact List.mem_cons_self _ _)
    obtain ⟨d, hd, hcd⟩ := this
    interval_cases d <;> simp_all <;> exact absurd hcd (by decide)
  have hminus : ∀ rest : List Char, natChars n ≠ '-' :: rest := by
    intro rest hq
    have := natChars_shape n '-' (by rw [hq]; exact List.mem_cons_self _ _)
    obtain ⟨d, hd, hcd⟩ := this
    interval_cases d <;> simp_all <;> exact absurd hcd (by decide)
  split
  · next rest heq => exact absurd heq (hplus rest)
  · next rest heq => exact absurd heq (hminus rest)
  · rw [digitsVal?_natChars]
    rfl

theorem digitChar_fixed {d : Nat} (h : d < 10) :
    linkCharMap (digitChar d) = digitChar d ∧ digitChar d ≠ '/' ∧ digitChar d ≠ '.' := by
  interval_cases d <;> exact ⟨rfl, by decide, by decide⟩

theorem linkCharMap_slash : linkCharMap '/' = '/' := rfl

theorem map_eq_self_of {α : Type} (f : α → α) (l : List α) (h : ∀ c ∈ l, f c = c) :
    l.map f = l := by
  induction l with
  | nil => rfl
  | cons a m ih =>
    simp only [List.map_cons, h a (List.mem_cons_self a m),
      ih fun c hc => h c (List.mem_cons_of_mem a hc)]

theorem natChars_map_fixed (n : Nat) : (natChars n).map linkCharMap = natChars n := by
  apply map_eq_self_of
  intro c hc
  obtain ⟨d, hd, rfl⟩ := natChars_shape n c hc
  exact (digitChar_fixed hd).1

theorem natChars_no_slash (n : Nat) : '/' ∉ natChars n := by
  intro hmem
  obtain ⟨d, hd, hcd⟩ := natChars_shape n '/' hmem
  exact (digitChar_fixed hd).2.1 hcd.symm

theorem natChars_no_dot (n : Nat) : '.' ∉ natChars n := by
  intro hmem
  obtain ⟨d, hd, hcd⟩ := natChars_shape n '.' hmem
  exact (digitChar_fixed hd).2.2 hcd.symm
/-! ### Helper lemmas for the claims -/

theorem hash_id_from_link_shape (front : List Char) (n : Nat) :
    pyInt? ((pySplit '/' (front ++ '/' :: natChars n)).getLastD []) = some (n : Int) := by
  rw [pySplit_getLastD_append, pySplit_of_not_mem _ _ (natChars_no_slash n)]
  simp [pyInt?_natChars]

theorem get_page_count_eq (n : Nat) :
    get_page_count (some n) = some ((n + ITEMS_PER_PAGE - 1) / ITEMS_PER_PAGE) := by
  simp only [get_page_count, ITEMS_PER_PAGE, Option.some.injEq]
  rcases Nat.eq_zero_or_pos n with h0 | hpos
  · subst h0
    norm_num
  · rw [Nat.ceil_eq_iff (by omega : (n + 60 - 1) / 60 ≠ 0),
      show ((60 : ℕ) : ℚ) = (60 : ℚ) from by norm_num]
    constructor
    · rw [lt_div_iff₀ (by norm_num : (0 : ℚ) < 60)]
      have hlt : ((n + 60 - 1) / 60 - 1) * 60 < n := by omega
      exact_mod_cast hlt
    · rw [div_le_iff₀ (by norm_num : (0 : ℚ) < 60)]
      have hle : n ≤ ((n + 60 - 1) / 60) * 60 := by omega
      exact_mod_cast hle

theorem save_items_go_all_ok (write_ok : Nat → Bool) (hok : ∀ i, write_ok i = true)
    (items : List (String → String)) :
    ∀ (k : Nat) (file : List (List String)),
      save_items_go write_ok (k + 1) items file
        = (true, file ++ items.map fun it => COLUMNS.map it) := by
  induction items with
  | nil => intro k file; simp [save_items_go]
  | cons it rest ih =>
    intro k file
    simp only [save_items_go, save_item, hok (k + 1), if_true, Nat.add_eq_zero,
      Nat.succ_ne_zero, and_false, beq_iff_eq, if_false]
    rw [ih (k + 1)]
    simp [List.append_assoc]

theorem scrape_pages_saved_subset (category : Nat → Option (List Int))
    (save_ok : Int → Bool) (pages : List Nat) :
    ∀ (ids added : List Int) (p : Nat),
      p ∈ (scrape_pages category save_ok pages ids added).saved_pages → p ∈ pages := by
  induction pages with
  | nil => intro ids added p hp; simp [scrape_pages] at hp
  | cons pg rest ih =>
    intro ids added p hp
    simp only [scrape_pages] at hp
    cases hcat : category pg with
    | none => rw [hcat] at hp; simp at hp
    | some estates =>
      rw [hcat] at hp
      simp only [List.mem_cons] at hp
      rcases hp with h1 | h2
      · exact h1 ▸ List.mem_cons_self _ _
      · exact List.mem_cons_of_mem _ (ih _ _ _ h2)

/-! ### The claims -/

/-- C9: `load_last_page` returns 0 when the checkpoint file is absent, when reading
it raises `OSError`, and when its content does not parse as an integer; corruption
is downgraded to the no-checkpoint value 0 (the source catches `OSError` and
`ValueError`, so nothing escapes — the model is a total function). -/
theorem load_last_page_robust (content : String)
    (hbad : pyInt? content.toList = none) :
    load_last_page none = 0 ∧ load_last_page (some none) = 0 ∧
    load_last_page (some (some content)) = 0 := by
  refine ⟨rfl, rfl, ?_⟩
  have hb : pyInt? content.data = none := hbad
  simp [load_last_page, hb]

/-- Witness for C9 at the concrete corrupted content `"not-a-number"`. -/
theorem load_last_page_robust_witness :
    pyInt? "not-a-number".toList = none ∧
    (load_last_page none = 0 ∧ load_last_page (some none) = 0 ∧
      load_last_page (some (some "not-a-number")) = 0) :=
  ⟨by decide, load_last_page_robust "not-a-number" (by decide)⟩

/-- C10: for every non-negative `hash_id`, parsing the filename written by
`save_item_json` (`json/<hash_id>.json`) with `hash_id_from_json_name` yields the
same `hash_id` back, so the garbage collector's orphan test matches the writer's
naming scheme. -/
theorem json_filename_round_trip (hash_id : Nat) :
    hash_id_from_json_name (save_item_json_filename hash_id) = some (hash_id : Int) := by
  unfold hash_id_from_json_name save_item_json_filename
  have hlist : (JSON_DIR ++ "/" ++ natStr hash_id ++ ".json").toList
      = ['j', 's', 'o', 'n'] ++ '/' ::
          (natChars hash_id ++ '.' :: ['j', 's', 'o', 'n']) := by
    show (JSON_DIR ++ "/" ++ natStr hash_id ++ ".json").data = _
    rw [String.data_append, String.data_append, String.data_append]
    rfl
  have h1 : '/' ∉ natChars hash_id ++ '.' :: ['j', 's', 'o', 'n'] := by
    intro hm
    rcases List.mem_append.mp hm with hA | hB
    · exact natChars_no_slash hash_id hA
    · exact absurd hB (by decide)
  rw [hlist, pySplit_getLastD_append, pySplit_of_not_mem '/' _ h1]
  rw [show ([(natChars hash_id ++ '.' :: ['j', 's', 'o', 'n'] : List Char)].getLastD [])
      = natChars hash_id ++ '.' :: ['j', 's', 'o', 'n'] from rfl]
  rw [pySplit_headD_append '.' _ _ (natChars_no_dot hash_id), pyInt?_natChars]

/-- C4: whenever re-deriving the live identifier set fails
(`scrape_hash_ids` yields no result), `check_items` returns `False` before loading
or writing the store, so the on-disk rows — and in particular the removal-mark
column — are exactly as before: the resulting file is `storeFile store` unchanged. -/
theorem check_items_abort_preserves_store (search_result : Option Nat)
    (category : Nat → Option (List Int)) (item_available : Int → Bool)
    (store : List (String → String)) (write_ok : Nat → Bool)
    (hfail : scrape_hash_ids search_result category = none) :
    check_items search_result category item_available store write_ok
      = some (false, storeFile store) := by
  simp [check_items, hfail]

/-- Witness for C4: a failed page-count lookup makes `scrape_hash_ids` yield
nothing, and `check_items` then returns failure with the store untouched. -/
theorem check_items_abort_preserves_store_witness :
    scrape_hash_ids none (fun _ => none) = none ∧
    check_items none (fun _ => none) (fun _ => true) [] (fun _ => true)
      = some (false, storeFile []) :=
  ⟨rfl, check_items_abort_preserves_store none (fun _ => none) (fun _ => true) []
    (fun _ => true) rfl⟩

/-- C3 counterexample: `save_items` is not atomic. With previous contents
`storeFile [oldRecord]` and two records to write, a failure on the second write
(index 1) leaves the file holding the header plus only the first new row: neither
the previous contents nor the full new contents. The claim's "on any I/O failure
leaves the previous on-disk contents intact" is false, because the first
`save_item` already truncated the file. -/
theorem save_items_not_atomic :
    (save_items [itemA, itemB] (fun i => i == 0) (storeFile [oldRecord])).1 = false ∧
    (save_items [itemA, itemB] (fun i => i == 0) (storeFile [oldRecord])).2
      = storeFile [itemA] ∧
    storeFile [itemA] ≠ storeFile [oldRecord] ∧
    storeFile [itemA] ≠ storeFile [itemA, itemB] := by decide

/-- C3 amended: `save_items` rewrites the file by truncating on the first record
and appending one row per further record; when every write succeeds the file ends
as header plus all given rows in the given order, but a mid-batch I/O failure
leaves a partially written file (the previous contents are already gone), which
the caller only learns of through the `False` return value. This theorem proves
the success half; the counterexample exhibits the partial-write half. -/
theorem save_items_success (items : List (String → String)) (write_ok : Nat → Bool)
    (file : List (List String)) (hne : items ≠ []) (hok : ∀ i, write_ok i = true) :
    save_items items write_ok file = (true, storeFile items) := by
  cases items with
  | nil => exact absurd rfl hne
  | cons it rest =>
    simp only [save_items, save_items_go, save_item, hok 0, if_true, beq_self_eq_true]
    rw [save_items_go_all_ok write_ok hok rest 0]
    simp [storeFile]

/-- Witness for C3's amended statement, at a single record written over a previous one-row file. -/
theorem save_items_success_witness :
    ([itemA] : List (String → String)) ≠ [] ∧
    save_items [itemA] (fun _ => true) (storeFile [oldRecord])
      = (true, storeFile [itemA]) :=
  ⟨by simp, save_items_success [itemA] (fun _ => true) (storeFile [oldRecord])
    (by simp) (fun _ => rfl)⟩

/-- C7 counterexample: the checkpoint is rolled back without the checkpoint file
being deleted. With the checkpoint file holding `"10"` (so `load_last_page` reads
10), a `build --update` run (`from_page = 1` by `build_from_page`) over a one-page
catalog writes page 1 to the checkpoint: the stored value decreases from 10 to 1,
yet no restart action deleted the file. -/
theorem checkpoint_rollback_on_update :
    load_last_page (some (some "10")) = 10 ∧
    build_from_page true = some 1 ∧
    (scrape_items (fun _ => some []) (fun _ => true) 1 (build_from_page true) 10
        []).saved_pages = [1] ∧
    (1 : Nat) < 10 := by decide

/-- C7 amended: with no `from_page` override the checkpoint never decreases —
every page number written during a run (and hence any prefix of them, if the run
is interrupted) strictly exceeds the checkpoint value the run started from; an
explicit override (`build --update`'s `from_page = 1`, besides `--restart`'s file
deletion) is the only way the stored value can go down. -/
theorem checkpoint_monotone (category : Nat → Option (List Int))
    (save_ok : Int → Bool) (page_count last_page : Nat)
    (store_hash_ids : List Int) :
    ∀ p ∈ (scrape_items category save_ok page_count none last_page
        store_hash_ids).saved_pages, last_page < p := by
  intro p hp
  have hmem : p ∈ pyRange (first_page_of none last_page) (page_count + 1) :=
    scrape_pages_saved_subset category save_ok _ store_hash_ids [] p hp
  rw [pyRange, first_page_of] at hmem
  have := List.mem_range'_1.mp hmem
  omega

/-- Witness for C7's amended statement: a run from checkpoint 0 saves page 1 > 0. -/
theorem checkpoint_monotone_witness :
    (1 : Nat) ∈ (scrape_items (fun _ => some []) (fun _ => true) 2 none 0
        []).saved_pages ∧ (0 : Nat) < 1 :=
  ⟨by decide, checkpoint_monotone (fun _ => some []) (fun _ => true) 2 0 [] 1
    (by decide)⟩

/-- C8: `get_page_count` is the ceiling of the reported result size over the fixed
page size 60 (125 items give 3 pages), and a run with `from_page = 2` and page
count 3 iterates exactly pages `[2, 3]`: page 1 is not in the range, and the run
never even consults the catalog at page 1 — two catalogs agreeing away from page 1
give identical runs. -/
theorem pagination_arithmetic_and_range
    (category1 category2 : Nat → Option (List Int)) (save_ok : Int → Bool)
    (store_hash_ids : List Int)
    (hagree : ∀ p, p ≠ 1 → category1 p = category2 p) :
    get_page_count (some 125) = some 3 ∧
    pyRange (first_page_of (some 2) 0) (3 + 1) = [2, 3] ∧
    1 ∉ pyRange (first_page_of (some 2) 0) (3 + 1) ∧
    scrape_items category1 save_ok 3 (some 2) 0 store_hash_ids
      = scrape_items category2 save_ok 3 (some 2) 0 store_hash_ids := by
  refine ⟨?_, by decide, by decide, ?_⟩
  · rw [get_page_count_eq]
    decide
  · show scrape_pages category1 save_ok (pyRange 2 4) store_hash_ids []
      = scrape_pages category2 save_ok (pyRange 2 4) store_hash_ids []
    have hr : pyRange 2 4 = [2, 3] := by decide
    rw [hr]
    simp only [scrape_pages, hagree 2 (by omega), hagree 3 (by omega)]

/-- Witness for C8 with the two catalogs taken equal everywhere. -/
theorem pagination_arithmetic_and_range_witness :
    get_page_count (some 125) = some 3 ∧
    pyRange (first_page_of (some 2) 0) (3 + 1) = [2, 3] ∧
    1 ∉ pyRange (first_page_of (some 2) 0) (3 + 1) ∧
    scrape_items (fun _ => some [7]) (fun _ => true) 3 (some 2) 0 []
      = scrape_items (fun _ => some [7]) (fun _ => true) 3 (some 2) 0 [] :=
  pagination_arithmetic_and_range (fun _ => some [7]) (fun _ => some [7])
    (fun _ => true) [] (fun _ _ => rfl)

theorem build_link_toList (E C : String) (n : Nat) :
    (ITEM_BASE_URL
        ++ ((E.toList ++ '/' :: (C.toList ++ '/' :: natChars n)).map
            linkCharMap).asString).toList
      = (ITEM_BASE_URL.toList ++ E.toList.map linkCharMap
          ++ '/' :: C.toList.map linkCharMap) ++ '/' :: natChars n := by
  show (ITEM_BASE_URL ++ _).data = _
  rw [String.data_append]
  rw [show (((E.toList ++ '/' :: (C.toList ++ '/' :: natChars n)).map
      linkCharMap).asString).data
    = (E.toList ++ '/' :: (C.toList ++ '/' :: natChars n)).map linkCharMap from rfl]
  rw [List.map_append, List.map_cons, List.map_append, List.map_cons,
    linkCharMap_slash, natChars_map_fixed]
  rw [show ITEM_BASE_URL.toList = ITEM_BASE_URL.data from rfl]
  simp only [List.append_assoc, List.cons_append]

/-- C5: for every item document and every non-negative `hash_id`, whenever
`get_item_link` produces a link (and hence for the stored row's link column),
`hash_id_from_link` parses that link back to exactly that `hash_id` — the
lower-casing, diacritic stripping and space/dot replacement never touch the
trailing decimal identifier, and the final `/` keeps it the last path segment. -/
theorem link_round_trip (item_json : ItemJson) (hash_id : Nat) (link : String)
    (h : get_item_link item_json hash_id = some link) :
    hash_id_from_link link = some (hash_id : Int) := by
  unfold get_item_link at h
  cases hloc : item_json.locality_value with
  | none => rw [hloc] at h; exact absurd h (by simp)
  | some loc =>
    rw [hloc] at h
    simp only [Option.bind_eq_bind, Option.some_bind] at h
    cases hnm : item_json.name_value with
    | none => rw [hnm] at h; exact absurd h (by simp)
    | some nm =>
      rw [hnm] at h
      simp only [Option.bind_eq_bind, Option.some_bind] at h
      unfold build_item_link at h
      cases het : estateTypeOfName? nm with
      | none => rw [het] at h; exact absurd h (by simp)
      | some et0 =>
        rw [het] at h
        simp only [Option.bind_eq_bind, Option.some_bind, Option.some.injEq] at h
        subst h
        unfold hash_id_from_link
        rw [build_link_toList, hash_id_from_link_shape]

/-- Witness for C5 at a concrete document: locality
`"Karla Engliše, Praha 5 - Smíchov"`, title `"Prodej bytu 2+1 83 m²"`,
identifier 123; the produced link ends in `/123` and parses back to 123. -/
theorem link_round_trip_witness :
    get_item_link docLink 123 = some
      "https://www.sreality.cz/detail/prodej/byt/2+1/praha-smichov-karla-englise/123" ∧
    hash_id_from_link
      "https://www.sreality.cz/detail/prodej/byt/2+1/praha-smichov-karla-englise/123"
      = some (123 : Int) :=
  ⟨by decide, link_round_trip docLink 123 _ (by decide)⟩

theorem foldl_step_inv (save_ok : Int → Bool) (estates : List Int) :
    ∀ (ids added : List Int) (x : Int), x ∈ ids → x ∉ added →
      x ∈ (estates.foldl (scrape_item_step save_ok) (ids, added)).1 ∧
      x ∉ (estates.foldl (scrape_item_step save_ok) (ids, added)).2 := by
  induction estates with
  | nil => intro ids added x hin hnot; exact ⟨hin, hnot⟩
  | cons e es ih =>
    intro ids added x hin hnot
    simp only [List.foldl_cons]
    by_cases he : e ∈ ids
    · rw [show scrape_item_step save_ok (ids, added) e = (ids, added) from by
        unfold scrape_item_step; simp [he]]
      exact ih ids added x hin hnot
    · cases hs : save_ok e
      · rw [show scrape_item_step save_ok (ids, added) e = (ids, added) from by
          unfold scrape_item_step; simp [he, hs]]
        exact ih ids added x hin hnot
      · rw [show scrape_item_step save_ok (ids, added) e
            = (ids ++ [e], added ++ [e]) from by
          unfold scrape_item_step; simp [he, hs]]
        apply ih
        · exact List.mem_append_left _ hin
        · intro hx
          rcases List.mem_append.mp hx with h1 | h2
          · exact hnot h1
          · simp only [List.mem_singleton] at h2
            exact he (h2 ▸ hin)

theorem foldl_step_noop (save_ok : Int → Bool) (estates : List Int) :
    ∀ (ids added : List Int), (∀ x ∈ estates, x ∈ ids) →
      estates.foldl (scrape_item_step save_ok) (ids, added) = (ids, added) := by
  induction estates with
  | nil => intro ids added _; rfl
  | cons e es ih =>
    intro ids added h
    simp only [List.foldl_cons]
    rw [show scrape_item_step save_ok (ids, added) e = (ids, added) from by
      unfold scrape_item_step; simp [h e (List.mem_cons_self e es)]]
    exact ih ids added fun x hx => h x (List.mem_cons_of_mem _ hx)

theorem scrape_pages_added_inv (category : Nat → Option (List Int))
    (save_ok : Int → Bool) (pages : List Nat) :
    ∀ (ids added : List Int) (x : Int), x ∈ ids → x ∉ added →
      x ∉ (scrape_pages category save_ok pages ids added).added := by
  induction pages with
  | nil => intro ids added x _ hnot; exact hnot
  | cons pg rest ih =>
    intro ids added x hin hnot
    cases hcat : category pg with
    | none => simpa [scrape_pages, hcat] using hnot
    | some estates =>
      simp only [scrape_pages, hcat]
      have hfold := foldl_step_inv save_ok estates ids added x hin hnot
      exact ih _ _ x hfold.1 hfold.2

theorem scrape_pages_added_noop (category : Nat → Option (List Int))
    (save_ok : Int → Bool) (pages : List Nat) :
    ∀ (ids added : List Int),
      (∀ p ∈ pages, ∀ x ∈ (category p).getD [], x ∈ ids) →
      (scrape_pages category save_ok pages ids added).added = added := by
  induction pages with
  | nil => intro ids added _; rfl
  | cons pg rest ih =>
    intro ids added h
    cases hcat : category pg with
    | none => simp [scrape_pages, hcat]
    | some estates =>
      have hnoop := foldl_step_noop save_ok estates ids added fun x hx =>
        h pg (List.mem_cons_self _ _) x (by rw [hcat]; exact hx)
      simp only [scrape_pages, hcat, hnoop]
      exact ih ids added fun p hp x hx => h p (List.mem_cons_of_mem _ hp) x hx

/-- C1: resumable deduplicated ingestion. With no `from_page` override a run whose
loaded checkpoint is `last_page` starts its page loop at `last_page + 1`; an item
whose `hash_id` is among the identifiers loaded from the store at startup is
skipped and never appended; hence a run over a catalog all of whose (visited)
identifiers are already stored appends zero new rows. -/
theorem scrape_items_resume_and_dedup (category : Nat → Option (List Int))
    (save_ok : Int → Bool) (page_count last_page : Nat)
    (store_hash_ids : List Int) :
    first_page_of none last_page = last_page + 1 ∧
    (∀ x ∈ store_hash_ids,
      x ∉ (scrape_items category save_ok page_count none last_page
          store_hash_ids).added) ∧
    ((∀ p ∈ pyRange (last_page + 1) (page_count + 1),
        ∀ x ∈ (category p).getD [], x ∈ store_hash_ids) →
      (scrape_items category save_ok page_count none last_page
          store_hash_ids).added = []) := by
  refine ⟨rfl, ?_, ?_⟩
  · intro x hx
    exact scrape_pages_added_inv category save_ok _ store_hash_ids [] x hx
      (by simp)
  · intro hall
    exact scrape_pages_added_noop category save_ok _ store_hash_ids [] hall

/-- Witness for C1: a two-page catalog whose only identifier 5 is already stored;
the run starting from checkpoint 0 visits pages 1–2 and appends nothing. -/
theorem scrape_items_resume_and_dedup_witness :
    first_page_of none 0 = 1 ∧
    (5 : Int) ∉ (scrape_items (fun _ => some [5]) (fun _ => true) 2 none 0
        [5]).added ∧
    (scrape_items (fun _ => some [5]) (fun _ => true) 2 none 0 [5]).added = [] := by
  have h := scrape_items_resume_and_dedup (fun _ => some [5]) (fun _ => true) 2 0 [5]
  exact ⟨h.1, h.2.1 5 (by decide), h.2.2 (by decide)⟩

theorem updF_eq (m : String → String) (k v : String) : updF m k v k = v := by
  simp [updF]

theorem updF_ne (m : String → String) (k v x : String) (h : x ≠ k) :
    updF m k v x = m x := by
  simp [updF, h]

theorem fieldValue_unknown (field : FieldJ) (t : String)
    (hu : t ∉ recognizedTypes) : fieldValue field t = some none := by
  simp only [recognizedTypes, List.mem_cons, List.not_mem_nil, or_false,
    not_or] at hu
  obtain ⟨h1, h2, h3, h4, h5, h6, h7, h8, h9, h10, h11, h12, h13, h14, h15, h16⟩ := hu
  simp [fieldValue, h1, h2, h3, h4, h5, h6, h7, h8, h9, h10, h11, h12, h13, h14,
    h15, h16]

/-- C6 counterexample: the claim's "fails only when the price, map or text block is
missing" is false — `docNoEmbedded` has all three present yet `get_item` fails,
because the contact logic reads `item_json['_embedded']` unconditionally and the
key is absent. -/
theorem get_item_fails_without_embedded :
    docNoEmbedded.price_czk.isSome = true ∧
    docNoEmbedded.map_latlon.isSome = true ∧
    docNoEmbedded.text_value.isSome = true ∧
    (get_item docNoEmbedded 123 "2024-01-01 00:00:00").isNone = true := by decide

theorem contact_section_none (item_json : ItemJson) (now : String)
    (m : String → String) (hemb : item_json.embedded_seller = none) :
    contact_section item_json now m = none := by
  simp [contact_section, hemb]

/-- C6 amended: the transform fails whenever any required key is missing — not just
the price, map or text blocks, but also (as proved here) the `'_embedded'` block,
whose absence alone makes `get_item` return `None`; and a field with an
unrecognized type tag never aborts the transform: the field loop leaves the record
exactly as it was (the column keeps its default empty value). -/
theorem get_item_failure_conditions (m : String → String) (field : FieldJ)
    (t : String) (item_json : ItemJson) (hash_id : Nat) (now : String)
    (hft : field.type = some t) (hu : t ∉ recognizedTypes)
    (hemb : item_json.embedded_seller = none) :
    procField m field = some m ∧ get_item item_json hash_id now = none := by
  constructor
  · simp [procField, hft, fieldValue_unknown field t hu]
  · cases hres : get_item item_json hash_id now with
    | none => rfl
    | some r =>
      exfalso
      unfold get_item at hres
      obtain ⟨fields, -, hres⟩ := Option.bind_eq_some.mp hres
      obtain ⟨m0, -, hres⟩ := Option.bind_eq_some.mp hres
      obtain ⟨link, -, hres⟩ := Option.bind_eq_some.mp hres
      obtain ⟨nm, -, hres⟩ := Option.bind_eq_some.mp hres
      obtain ⟨loc, -, hres⟩ := Option.bind_eq_some.mp hres
      obtain ⟨pc, -, hres⟩ := Option.bind_eq_some.mp hres
      obtain ⟨prs, -, hres⟩ := Option.bind_eq_some.mp hres
      obtain ⟨txt, -, hres⟩ := Option.bind_eq_some.mp hres
      obtain ⟨ll, -, hres⟩ := Option.bind_eq_some.mp hres
      obtain ⟨la, -, hres⟩ := Option.bind_eq_some.mp hres
      obtain ⟨lo, -, hres⟩ := Option.bind_eq_some.mp hres
      rw [contact_section_none item_json now _ hemb] at hres
      exact Option.noConfusion hres

/-- Witness for C6's amended statement: the unknown-tag field `fieldUnknownType`
leaves the empty record unchanged, and `docNoEmbedded` (missing only the
`'_embedded'` key) fails the transform. -/
theorem get_item_failure_conditions_witness :
    procField (fun _ => "") fieldUnknownType = some (fun _ => "") ∧
    get_item docNoEmbedded 123 "2024-01-01 00:00:00" = none :=
  get_item_failure_conditions (fun _ => "") fieldUnknownType "weird_type"
    docNoEmbedded 123 "2024-01-01 00:00:00" rfl (by decide) rfl

theorem get_item_some_contact_section (item_json : ItemJson) (hash_id : Nat)
    (now : String) (r : String → String)
    (hr : get_item item_json hash_id now = some r) :
    ∃ m, contact_section item_json now m = some r := by
  unfold get_item at hr
  obtain ⟨fields, -, hr⟩ := Option.bind_eq_some.mp hr
  obtain ⟨m0, -, hr⟩ := Option.bind_eq_some.mp hr
  obtain ⟨link, -, hr⟩ := Option.bind_eq_some.mp hr
  obtain ⟨nm, -, hr⟩ := Option.bind_eq_some.mp hr
  obtain ⟨loc, -, hr⟩ := Option.bind_eq_some.mp hr
  obtain ⟨pc, -, hr⟩ := Option.bind_eq_some.mp hr
  obtain ⟨prs, -, hr⟩ := Option.bind_eq_some.mp hr
  obtain ⟨txt, -, hr⟩ := Option.bind_eq_some.mp hr
  obtain ⟨ll, -, hr⟩ := Option.bind_eq_some.mp hr
  obtain ⟨la, -, hr⟩ := Option.bind_eq_some.mp hr
  obtain ⟨lo, -, hr⟩ := Option.bind_eq_some.mp hr
  exact ⟨_, hr⟩

theorem contact_section_contact (item_json : ItemJson) (now : String)
    (m r : String → String) (c : ContactJ) (cn cd num : String)
    (hc : item_json.contact = some c) (hcn : c.name = some cn)
    (hcp : c.phones = some [{ code := some cd, number := some num }])
    (hr : contact_section item_json now m = some r) :
    r "Контакт Имя" = cn ∧ r "Контакт телефон 1" = "+" ++ cd ++ num := by
  unfold contact_section at hr
  obtain ⟨so, -, hr⟩ := Option.bind_eq_some.mp hr
  obtain ⟨sm, -, hr⟩ := Option.bind_eq_some.mp hr
  obtain ⟨cm, hcm, hr⟩ := Option.bind_eq_some.mp hr
  rw [hc] at hcm
  simp only [contact_update] at hcm
  rw [hcn, hcp] at hcm
  simp only [Option.bind_eq_bind, Option.some_bind, Option.pure_def,
    Option.some.injEq] at hcm
  subst hcm
  obtain ⟨m1, hm1, hr⟩ := Option.bind_eq_some.mp hr
  simp only [phone1_update, Option.bind_eq_bind, Option.some_bind, Option.pure_def,
    Option.some.injEq] at hm1
  subst hm1
  obtain ⟨m2, hm2, hr⟩ := Option.bind_eq_some.mp hr
  simp only [phone2_update, Option.pure_def, Option.some.injEq] at hm2
  subst hm2
  simp only [Option.pure_def, Option.some.injEq] at hr
  subst hr
  constructor
  · rw [updF_ne _ _ _ _ (by decide), updF_ne _ _ _ _ (by decide),
      updF_ne _ _ _ _ (by decide), updF_ne _ _ _ _ (by decide), updF_eq]
  · rw [updF_ne _ _ _ _ (by decide), updF_ne _ _ _ _ (by decide),
      updF_ne _ _ _ _ (by decide), updF_eq]

theorem contact_section_seller (item_json : ItemJson) (now : String)
    (m r : String → String) (s : SellerJ) (sn cd num : String)
    (hco : item_json.contact = none)
    (hemb : item_json.embedded_seller = some (some s))
    (hsn : s.user_name = some sn)
    (hsp : s.phones = some [{ code := some cd, number := some num }])
    (hr : contact_section item_json now m = some r) :
    r "Контакт Имя" = sn ∧ r "Контакт телефон 1" = "+" ++ cd ++ num := by
  unfold contact_section at hr
  obtain ⟨so, hso, hr⟩ := Option.bind_eq_some.mp hr
  rw [hemb, Option.some.injEq] at hso
  subst hso
  obtain ⟨sm, hsm, hr⟩ := Option.bind_eq_some.mp hr
  simp only [seller_update] at hsm
  rw [hsn, hsp] at hsm
  simp only [Option.bind_eq_bind, Option.some_bind, Option.pure_def,
    Option.some.injEq] at hsm
  subst hsm
  obtain ⟨cm, hcm, hr⟩ := Option.bind_eq_some.mp hr
  rw [hco] at hcm
  simp only [contact_update, Option.pure_def, Option.some.injEq] at hcm
  subst hcm
  obtain ⟨m1, hm1, hr⟩ := Option.bind_eq_some.mp hr
  simp only [phone1_update, Option.bind_eq_bind, Option.some_bind, Option.pure_def,
    Option.some.injEq] at hm1
  subst hm1
  obtain ⟨m2, hm2, hr⟩ := Option.bind_eq_some.mp hr
  simp only [phone2_update, Option.pure_def, Option.some.injEq] at hm2
  subst hm2
  simp only [Option.pure_def, Option.some.injEq] at hr
  subst hr
  constructor
  · rw [updF_ne _ _ _ _ (by decide), updF_ne _ _ _ _ (by decide),
      updF_ne _ _ _ _ (by decide), updF_ne _ _ _ _ (by decide), updF_eq]
  · rw [updF_ne _ _ _ _ (by decide), updF_ne _ _ _ _ (by decide),
      updF_ne _ _ _ _ (by decide), updF_eq]

/-- C2 counterexample: the claim says the seller block is preferred and the
contact block is only a fallback; in the code it is the other way round. With
both blocks present (`docBoth`, seller named `"Bob"`, contact named `"Jane"`),
the produced record carries the contact block's name and phone, not the
seller's. -/
theorem contact_overrides_seller :
    docBoth.embedded_seller = some (some sellerBob) ∧
    sellerBob.user_name = some "Bob" ∧
    ((get_item docBoth 123 "2024-01-01 00:00:00").map fun r => r "Контакт Имя")
      = some "Jane" ∧
    ((get_item docBoth 123 "2024-01-01 00:00:00").map
        fun r => r "Контакт телефон 1")
      = some "+420999888777" := by decide

/-- C2 amended: the top-level contact block takes precedence — when it is present
(with a name and one phone) the record's contact name and first phone come from
it, whatever the seller block holds; the embedded seller block's values are used
only as the fallback when the contact block is absent. -/
theorem get_item_contact_preference :
    (∀ (item_json : ItemJson) (hash_id : Nat) (now : String) (r : String → String)
        (c : ContactJ) (cn cd num : String),
      item_json.contact = some c → c.name = some cn →
      c.phones = some [{ code := some cd, number := some num }] →
      get_item item_json hash_id now = some r →
      r "Контакт Имя" = cn ∧ r "Контакт телефон 1" = "+" ++ cd ++ num) ∧
    (∀ (item_json : ItemJson) (hash_id : Nat) (now : String) (r : String → String)
        (s : SellerJ) (sn cd num : String),
      item_json.contact = none → item_json.embedded_seller = some (some s) →
      s.user_name = some sn →
      s.phones = some [{ code := some cd, number := some num }] →
      get_item item_json hash_id now = some r →
      r "Контакт Имя" = sn ∧ r "Контакт телефон 1" = "+" ++ cd ++ num) := by
  constructor
  · intro item_json hash_id now r c cn cd num hc hcn hcp hr
    obtain ⟨m, hm⟩ := get_item_some_contact_section item_json hash_id now r hr
    exact contact_section_contact item_json now m r c cn cd num hc hcn hcp hm
  · intro item_json hash_id now r s sn cd num hco hemb hsn hsp hr
    obtain ⟨m, hm⟩ := get_item_some_contact_section item_json hash_id now r hr
    exact contact_section_seller item_json now m r s sn cd num hco hemb hsn hsp hm

/-- Witness for C2's amended statement: with both blocks present the contact
name `"Jane"` wins; with the contact block removed the seller name `"Bob"` is
used. -/
theorem get_item_contact_preference_witness :
    ((get_item docBoth 7 "ts").map fun r => r "Контакт Имя") = some "Jane" ∧
    ((get_item docSellerOnly 7 "ts").map fun r => r "Контакт Имя") = some "Bob" := by
  constructor
  · cases hq : get_item docBoth 7 "ts" with
    | none =>
      have hs : (get_item docBoth 7 "ts").isSome = true := by decide
      rw [hq] at hs
      exact Bool.noConfusion hs
    | some r =>
      have h := get_item_contact_preference.1 docBoth 7 "ts" r contactJane "Jane"
        "420" "999888777" rfl rfl rfl hq
      rw [Option.map_some', h.1]
  · cases hq : get_item docSellerOnly 7 "ts" with
    | none =>
      have hs : (get_item docSellerOnly 7 "ts").isSome = true := by decide
      rw [hq] at hs
      exact Bool.noConfusion hs
    | some r =>
      have h := get_item_contact_preference.2 docSellerOnly 7 "ts" r sellerBob
        "Bob" "420" "111222333" rfl rfl rfl rfl hq
      rw [Option.map_some', h.1]
